import Mathlib

/-
Shallow embedding of the `bubbles` repository (src/input/input.go), which
contains three Go compilation units: the `input` package (a single-line
text field), the `viewport` package (a scrollable view), and a demo
program (not modelled; it is glue only).

Modelling conventions:
  * Go strings are modelled as `List Char` (`GoStr`); the source treats
    text as a flat indexable sequence of byte-sized units.
  * Go `int` is modelled as `Int`.
  * A Go slice expression `s[a:b]` panics unless `0 <= a <= b <= len(s)`;
    it is modelled by `goSlice`, returning `none` on a panic.
    `strings.Repeat(s, n)` panics for `n < 0`; modelled by `goRepeat`.
  * Functions whose Go bodies can panic return `Option`; `none` models
    the panic.
  * Go methods with pointer receivers (`*Model`) are modelled as
    `Model -> Model` state transformers, which is the caller-observed
    semantics.  `SetSize` has a VALUE receiver in the source and returns
    nothing, so its caller-observed semantics is the identity; the body's
    effect on the receiver copy is modelled separately
    (`setSizeReceiverCopy`).
-/

/-- Go strings as flat sequences of character units. -/
abbrev GoStr := List Char

/-- Go slice expression `xs[a:b]`: defined exactly when
`0 <= a <= b <= len xs`, otherwise the Go program panics (`none`). -/
def goSlice {α : Type} (xs : List α) (a b : Int) : Option (List α) :=
  if 0 ≤ a ∧ a ≤ b ∧ b ≤ (xs.length : Int) then
    some ((xs.take b.toNat).drop a.toNat)
  else
    none

/-- Go `strings.Repeat(string(c), n)`: panics (`none`) when `n < 0`. -/
def goRepeat (c : Char) (n : Int) : Option GoStr :=
  if 0 ≤ n then some (List.replicate n.toNat c) else none

/-- Go `strings.Join(ls, "\n")`. -/
def joinNL (ls : List GoStr) : GoStr :=
  List.intercalate ['\n'] ls

/-- Go `strings.Replace(s, "\r\n", "\n", -1)`: replace every
non-overlapping occurrence of CRLF by LF, scanning left to right. -/
def normalizeCRLF : GoStr → GoStr
  | [] => []
  | [c] => [c]
  | c :: d :: rest =>
    if c = '\r' ∧ d = '\n' then '\n' :: normalizeCRLF rest
    else c :: normalizeCRLF (d :: rest)

/-- Go `strings.Split(s, "\n")`: split on every newline; the result
always has one more element than the number of separators, in
particular `strings.Split("", "\n") = [""]`. -/
def splitLines : GoStr → List GoStr
  | [] => [[]]
  | c :: rest =>
    if c = '\n' then [] :: splitLines rest
    else
      match splitLines rest with
      | [] => [[c]]
      | l :: ls => (c :: l) :: ls

namespace input

/-- The `input.Model` struct of the text-field package.  `BlinkSpeed`
(a `time.Duration`) is modelled as nanoseconds. -/
structure Model where
  Prompt : GoStr
  Value : GoStr
  Cursor : GoStr
  HiddenCursor : GoStr
  BlinkSpeed : Int
  blink : Bool
  pos : Int
deriving DecidableEq

/-- `input.DefaultModel()`. -/
def DefaultModel : Model :=
  { Prompt := ['>', ' ']
    Value := []
    Cursor := []
    HiddenCursor := []
    BlinkSpeed := 600000000
    blink := false
    pos := 0 }

/-- Key kinds of `tea.KeyMsg` handled by the text-field update; a key
press of a printable character (`tea.KeyRune`) carries its character. -/
inductive Key where
  | backspace
  | delete
  | left
  | right
  | ctrlA
  | ctrlD
  | ctrlE
  | ctrlK
  | rune (c : Char)
  | otherKey
deriving DecidableEq

/-- The `tea.Msg` values relevant to the text field: key messages,
`CursorBlinkMsg`, and anything else. -/
inductive Msg where
  | key (k : Key)
  | cursorBlink
  | other
deriving DecidableEq

/-- `input.Update(msg, m)`.  The Go function also returns a `tea.Cmd`
which is `nil` on every path, so it is omitted.  `none` models a panic:
the backspace/delete branch evaluates `m.Value[:m.pos-1]`, which panics
when `m.pos - 1 < 0`. -/
def Update (msg : Msg) (m : Model) : Option Model :=
  match msg with
  | Msg.key k =>
    match k with
    | Key.backspace | Key.delete =>
      if 0 < m.Value.length then
        match goSlice m.Value 0 (m.pos - 1),
              goSlice m.Value m.pos (m.Value.length : Int) with
        | some l, some r => some { m with Value := l ++ r, pos := m.pos - 1 }
        | _, _ => none
      else some m
    | Key.left =>
      if 0 < m.pos then some { m with pos := m.pos - 1 } else some m
    | Key.right =>
      if m.pos < (m.Value.length : Int) then some { m with pos := m.pos + 1 }
      else some m
    | Key.ctrlA =>
      some { m with pos := 0 }
    | Key.ctrlD =>
      if 0 < m.Value.length ∧ m.pos < (m.Value.length : Int) then
        match goSlice m.Value 0 m.pos,
              goSlice m.Value (m.pos + 1) (m.Value.length : Int) with
        | some l, some r => some { m with Value := l ++ r }
        | _, _ => none
      else some m
    | Key.ctrlE =>
      some { m with pos := (m.Value.length : Int) - 1 }
    | Key.ctrlK =>
      match goSlice m.Value 0 m.pos with
      | some l => some { m with Value := l, pos := (l.length : Int) }
      | none => none
    | Key.rune c =>
      match goSlice m.Value 0 m.pos,
            goSlice m.Value m.pos (m.Value.length : Int) with
      | some l, some r =>
        some { m with Value := l ++ [c] ++ r, pos := m.pos + 1 }
      | _, _ => none
    | Key.otherKey => some m
  | Msg.cursorBlink => some { m with blink := !m.blink }
  | Msg.other => some m

end input

namespace viewport

/-- The `viewport.Model` struct.  `Err` holds the message of the stored
`error` value (`none` for Go's `nil`). -/
structure Model where
  Err : Option GoStr
  Width : Int
  Height : Int
  YOffset : Int
  YPosition : Int
  HighPerformanceRendering : Bool
  lines : List GoStr
deriving DecidableEq

/-- `viewport.NewModel(width, height)`: the remaining fields take Go's
zero values (`nil` lines are the empty list). -/
def NewModel (width height : Int) : Model :=
  { Err := none
    Width := width
    Height := height
    YOffset := 0
    YPosition := 0
    HighPerformanceRendering := false
    lines := [] }

/-- The body of `func (m Model) SetSize(yPos int, width, height int)`,
applied to the receiver copy: it assigns the three geometry fields. -/
def setSizeReceiverCopy (m : Model) (yPos width height : Int) : Model :=
  { m with YPosition := yPos, Width := width, Height := height }

/-- Caller-observed semantics of `m.SetSize(yPos, width, height)`:
`SetSize` is declared with a VALUE receiver (`func (m Model) SetSize`,
unlike the pointer-receiver mutators of this package) and returns
nothing, so the assignments act on a local copy and the caller's model
is unchanged. -/
def SetSize (m : Model) (yPos width height : Int) : Model :=
  m

/-- `func (m Model) AtTop() bool`: `m.YOffset <= 0`. -/
def AtTop (m : Model) : Bool :=
  decide (m.YOffset ≤ 0)

/-- `func (m Model) AtBottom() bool`:
`m.YOffset >= len(m.lines)-m.Height-1`. -/
def AtBottom (m : Model) : Bool :=
  decide ((m.lines.length : Int) - m.Height - 1 ≤ m.YOffset)

/-- `func (m *Model) SetContent(s string)`: normalizes line endings and
splits into lines; no other field is touched. -/
def SetContent (m : Model) (s : GoStr) : Model :=
  { m with lines := splitLines (normalizeCRLF s) }

/-- `func (m *Model) ViewDown()`: page down.  No-op at the bottom, else
`YOffset = min(YOffset+Height, len(lines)-Height)`. -/
def ViewDown (m : Model) : Model :=
  if AtBottom m then m
  else { m with YOffset := min (m.YOffset + m.Height) ((m.lines.length : Int) - m.Height) }

/-- `func (m *Model) ViewUp()`: page up.  No-op at the top, else
`YOffset = max(YOffset-Height, 0)`. -/
def ViewUp (m : Model) : Model :=
  if AtTop m then m
  else { m with YOffset := max (m.YOffset - m.Height) 0 }

/-- `viewport.View(m)`.  High-performance rendering returns `Height-1`
newlines; otherwise a stored error short-circuits; otherwise the
visible slice of `lines`, joined by newlines and padded with newlines
up to `Height`.  `none` models a panic of `strings.Repeat` (negative
count) or of the slice expression `m.lines[top:bottom]`. -/
def View (m : Model) : Option GoStr :=
  if m.HighPerformanceRendering then
    goRepeat '\n' (m.Height - 1)
  else
    match m.Err with
    | some e => some e
    | none =>
      match (if 0 < m.lines.length then
               goSlice m.lines (max 0 m.YOffset)
                 (min (m.lines.length : Int) (m.YOffset + m.Height))
             else some []) with
      | none => none
      | some visible =>
        match (if (visible.length : Int) < m.Height then
                 goRepeat '\n' (m.Height - (visible.length : Int))
               else some []) with
        | none => none
        | some extra => some (joinNL visible ++ extra)

end viewport

/-- Text field with value `"ab"` and caret 0, the state named by the
spec's backspace boundary example. -/
def mAB : input.Model :=
  { Prompt := ['>', ' ']
    Value := ['a', 'b']
    Cursor := []
    HiddenCursor := []
    BlinkSpeed := 600000000
    blink := false
    pos := 0 }

/-- Text field with value `"ab"` and caret 1, used to exercise the
caret invariant at a concrete input. -/
def mMid : input.Model :=
  { mAB with pos := 1 }

/-- Text field with empty value and caret 0. -/
def mEmpty : input.Model :=
  { mAB with Value := [], pos := 0 }

/-- Viewport whose content (one line) is shorter than its height. -/
def mShort : viewport.Model :=
  { Err := none
    Width := 0
    Height := 2
    YOffset := 0
    YPosition := 0
    HighPerformanceRendering := false
    lines := [['x']] }

/-- Viewport with 25 lines, height 10, scrolled to the top. -/
def m25 : viewport.Model :=
  { Err := none
    Width := 80
    Height := 10
    YOffset := 0
    YPosition := 0
    HighPerformanceRendering := false
    lines := List.replicate 25 [] }

/-- Viewport with 30 lines, height 10, offset 5 (non-boundary, not a
multiple of the height). -/
def m30a : viewport.Model :=
  { m25 with lines := List.replicate 30 [], YOffset := 5 }

/-- Viewport with 30 lines, height 10, offset 10. -/
def m30b : viewport.Model :=
  { m30a with YOffset := 10 }

/-- Viewport holding a stored error, standard rendering. -/
def mErr : viewport.Model :=
  { Err := some ['b', 'o', 'o', 'm']
    Width := 0
    Height := 3
    YOffset := 0
    YPosition := 0
    HighPerformanceRendering := false
    lines := [] }

/-- Viewport holding a stored error, high-performance rendering. -/
def mErrHP : viewport.Model :=
  { mErr with HighPerformanceRendering := true }

/- ------------------------------------------------------------------ -/
/- Helper lemmas                                                      -/
/- ------------------------------------------------------------------ -/

theorem goSlice_eq_some {α : Type} {xs : List α} {a b : Int} {ys : List α}
    (h : goSlice xs a b = some ys) :
    0 ≤ a ∧ a ≤ b ∧ b ≤ (xs.length : Int) ∧ (ys.length : Int) = b - a := by
  unfold goSlice at h
  split at h
  · rename_i hc
    obtain ⟨h0, hab, hbl⟩ := hc
    cases h
    refine ⟨h0, hab, hbl, ?_⟩
    simp only [List.length_drop, List.length_take]
    omega
  · exact absurd h (by simp)

theorem splitLines_ne_nil (s : GoStr) : splitLines s ≠ [] := by
  induction s with
  | nil => simp [splitLines]
  | cons c rest ih =>
    simp only [splitLines]
    split
    · simp
    · split <;> simp

theorem viewDown_atBottom {m : viewport.Model}
    (h : viewport.AtBottom m = true) : viewport.ViewDown m = m := by
  simp [viewport.ViewDown, h]

theorem viewDown_not_atBottom {m : viewport.Model}
    (h : viewport.AtBottom m = false) :
    viewport.ViewDown m
      = { m with YOffset := min (m.YOffset + m.Height) ((m.lines.length : Int) - m.Height) } := by
  unfold viewport.ViewDown
  rw [h]
  simp

theorem viewUp_not_atTop {m : viewport.Model}
    (h : viewport.AtTop m = false) :
    viewport.ViewUp m
      = { m with YOffset := max (m.YOffset - m.Height) 0 } := by
  unfold viewport.ViewUp
  rw [h]
  simp

/- ------------------------------------------------------------------ -/
/- Claims                                                             -/
/- ------------------------------------------------------------------ -/

/-- C1: the claim says backspace on `{value:"ab", caret:0}` is a no-op.
The code instead evaluates `m.Value[:m.pos-1]` with `m.pos-1 = -1`,
which panics (slice bounds out of range); the update produces no state
at all, so the result does not equal the input state. -/
theorem C1_backspace_at_zero_panics :
    input.Update (input.Msg.key input.Key.backspace) mAB = none := by
  decide

/-- C2: the claim says the update is total on every valid state and
recognized event, degrading boundary cases to no-ops.  Here is a state
satisfying `0 <= caret <= len(value)` on which the recognized backspace
event panics (`none`) instead of being a no-op. -/
theorem C2_update_not_total :
    (0 ≤ mAB.pos ∧ mAB.pos ≤ (mAB.Value.length : Int))
      ∧ input.Update (input.Msg.key input.Key.backspace) mAB = none := by
  decide

/-- C3 counterexample: move-to-end (Ctrl-E) on the empty value takes
the valid state `{value:"", caret:0}` to caret `-1`, violating
`0 <= caret`. -/
theorem C3_counterexample :
    (0 ≤ mEmpty.pos ∧ mEmpty.pos ≤ (mEmpty.Value.length : Int))
      ∧ input.Update (input.Msg.key input.Key.ctrlE) mEmpty
          = some { mEmpty with pos := -1 }
      ∧ ¬ (0 ≤ ({ mEmpty with pos := -1 } : input.Model).pos) := by
  decide

/-- C4: the claim says `SetSize` replaces the observed geometry.  The
method has a value receiver and returns nothing, so the caller's model
is unchanged: after `SetSize(1, 2, 3)` on `NewModel(10, 10)` the
observed width is still 10 and the y-position still 0, even though the
body does assign the fields of its local receiver copy. -/
theorem C4_setsize_observed_noop :
    viewport.SetSize (viewport.NewModel 10 10) 1 2 3 = viewport.NewModel 10 10
      ∧ (viewport.SetSize (viewport.NewModel 10 10) 1 2 3).Width ≠ 2
      ∧ (viewport.SetSize (viewport.NewModel 10 10) 1 2 3).YPosition ≠ 1
      ∧ (viewport.setSizeReceiverCopy (viewport.NewModel 10 10) 1 2 3).Width = 2 := by
  decide

/-- C5 counterexample: a viewport whose single line is shorter than its
height 2 satisfies the stated invariant `0 <= offset <= max(0,
len(lines)-height)` with offset 0, but after `pageDown()` (a no-op:
`AtBottom` holds) the offset 0 violates the claimed bound
`offset <= len(lines) - height = -1`. -/
theorem C5_counterexample :
    (0 ≤ mShort.YOffset
        ∧ mShort.YOffset ≤ max 0 ((mShort.lines.length : Int) - mShort.Height))
      ∧ ¬ ((viewport.ViewDown mShort).YOffset
            ≤ (mShort.lines.length : Int) - mShort.Height) := by
  decide

/-- C6 counterexample: 30 lines, height 10, offset 5: the offset is
non-boundary, and the height 10 evenly divides the scrollable range
`30 - 10 = 20`, yet `pageUp()` clamps to 0 and the following
`pageDown()` lands at 10, not back at 5. -/
theorem C6_counterexample :
    (viewport.AtTop m30a = false ∧ viewport.AtBottom m30a = false)
      ∧ ((m30a.lines.length : Int) - m30a.Height) % m30a.Height = 0
      ∧ (viewport.ViewDown (viewport.ViewUp m30a)).YOffset ≠ m30a.YOffset := by
  decide

/-- C7 counterexample: with high-performance rendering enabled the
stored error is not rendered: `View` returns the `Height-1` newline
placeholder instead of the error message. -/
theorem C7_counterexample :
    mErrHP.Err = some ['b', 'o', 'o', 'm']
      ∧ viewport.View mErrHP ≠ some ['b', 'o', 'o', 'm'] := by
  decide

/-- C9: the move-to-end event (Ctrl-E) sets the caret to
`len(value) - 1` — one short of the true end whenever the value is
non-empty — and leaves the value (and every other field) unchanged, on
every state. -/
theorem C9_move_to_end (m : input.Model) :
    input.Update (input.Msg.key input.Key.ctrlE) m
      = some { m with pos := (m.Value.length : Int) - 1 } := rfl

/-- C8: `SetContent` replaces `lines` with the input split on newlines
after normalizing CRLF to LF, leaves the offset unchanged, and on
`"a\r\nb\r\nc"` yields exactly the three lines `["a", "b", "c"]`. -/
theorem C8_setcontent_normalizes (m : viewport.Model) (s : GoStr) :
    (viewport.SetContent m s).lines = splitLines (normalizeCRLF s)
      ∧ (viewport.SetContent m s).YOffset = m.YOffset
      ∧ (viewport.SetContent m ['a', '\r', '\n', 'b', '\r', '\n', 'c']).lines
          = [['a'], ['b'], ['c']] :=
  ⟨rfl, rfl, rfl⟩

/-- C10: after `SetContent` the line list is never empty; in particular
the empty input produces the single empty line `[""]`. -/
theorem C10_lines_nonempty (m : viewport.Model) (s : GoStr) :
    (viewport.SetContent m s).lines ≠ []
      ∧ (viewport.SetContent m []).lines = [[]] :=
  ⟨splitLines_ne_nil (normalizeCRLF s), rfl⟩

/-- C3 (amended): for every valid state (`0 <= caret <= len(value)`)
and every event, whenever the update returns a state (backspace/delete
at caret 0 on a non-empty value panics and returns none) and the event
is not move-to-end on an empty value (which returns caret `-1`), the
returned state again satisfies `0 <= caret <= len(value)`. -/
theorem C3_caret_invariant (msg : input.Msg) (m m2 : input.Model)
    (hlo : 0 ≤ m.pos) (hhi : m.pos ≤ (m.Value.length : Int))
    (hex : ¬(msg = input.Msg.key input.Key.ctrlE ∧ m.Value = []))
    (hup : input.Update msg m = some m2) :
    0 ≤ m2.pos ∧ m2.pos ≤ (m2.Value.length : Int) := by
  cases msg with
  | cursorBlink =>
    simp only [input.Update] at hup
    injection hup with h
    subst h
    exact ⟨hlo, hhi⟩
  | other =>
    simp only [input.Update] at hup
    injection hup with h
    subst h
    exact ⟨hlo, hhi⟩
  | key k =>
    cases k with
    | backspace =>
      simp only [input.Update] at hup
      split at hup
      · split at hup
        · rename_i l r hl hr
          injection hup with h
          subst h
          dsimp only
          obtain ⟨-, hb1, -, hb2⟩ := goSlice_eq_some hl
          obtain ⟨-, -, -, hc2⟩ := goSlice_eq_some hr
          simp only [List.length_append]
          push_cast
          omega
        · exact Option.noConfusion hup
      · injection hup with h
        subst h
        exact ⟨hlo, hhi⟩
    | delete =>
      simp only [input.Update] at hup
      split at hup
      · split at hup
        · rename_i l r hl hr
          injection hup with h
          subst h
          dsimp only
          obtain ⟨-, hb1, -, hb2⟩ := goSlice_eq_some hl
          obtain ⟨-, -, -, hc2⟩ := goSlice_eq_some hr
          simp only [List.length_append]
          push_cast
          omega
        · exact Option.noConfusion hup
      · injection hup with h
        subst h
        exact ⟨hlo, hhi⟩
    | left =>
      simp only [input.Update] at hup
      split at hup
      · rename_i hpos
        injection hup with h
        subst h
        dsimp only
        constructor
        · omega
        · omega
      · injection hup with h
        subst h
        exact ⟨hlo, hhi⟩
    | right =>
      simp only [input.Update] at hup
      split at hup
      · rename_i hpos
        injection hup with h
        subst h
        dsimp only
        constructor
        · omega
        · omega
      · injection hup with h
        subst h
        exact ⟨hlo, hhi⟩
    | ctrlA =>
      simp only [input.Update] at hup
      injection hup with h
      subst h
      dsimp only
      constructor
      · omega
      · omega
    | ctrlD =>
      simp only [input.Update] at hup
      split at hup
      · rename_i hcond
        split at hup
        · rename_i l r hl hr
          injection hup with h
          subst h
          dsimp only
          obtain ⟨-, hb1, -, hb2⟩ := goSlice_eq_some hl
          obtain ⟨-, -, -, hc2⟩ := goSlice_eq_some hr
          simp only [List.length_append]
          push_cast
          omega
        · exact Option.noConfusion hup
      · injection hup with h
        subst h
        exact ⟨hlo, hhi⟩
    | ctrlE =>
      simp only [input.Update] at hup
      injection hup with h
      subst h
      dsimp only
      have hne : m.Value ≠ [] := fun hv => hex ⟨rfl, hv⟩
      have hlen : 0 < m.Value.length := List.length_pos.mpr hne
      constructor
      · omega
      · omega
    | ctrlK =>
      simp only [input.Update] at hup
      split at hup
      · rename_i l hl
        injection hup with h
        subst h
        dsimp only
        exact ⟨Int.natCast_nonneg _, le_refl _⟩
      · exact Option.noConfusion hup
    | rune c =>
      simp only [input.Update] at hup
      split at hup
      · rename_i l r hl hr
        injection hup with h
        subst h
        dsimp only
        obtain ⟨-, hb1, -, hb2⟩ := goSlice_eq_some hl
        obtain ⟨-, -, -, hc2⟩ := goSlice_eq_some hr
        simp only [List.length_append, List.length_singleton]
        push_cast
        omega
      · exact Option.noConfusion hup
    | otherKey =>
      simp only [input.Update] at hup
      injection hup with h
      subst h
      exact ⟨hlo, hhi⟩

/-- C3 witness: cursor-right on `{value:"ab", caret:1}` returns
`{value:"ab", caret:2}`, which satisfies the caret invariant. -/
theorem C3_caret_invariant_witness :
    0 ≤ ({ mMid with pos := 2 } : input.Model).pos
      ∧ ({ mMid with pos := 2 } : input.Model).pos
          ≤ (({ mMid with pos := 2 } : input.Model).Value.length : Int) :=
  C3_caret_invariant (input.Msg.key input.Key.right) mMid { mMid with pos := 2 }
    (by decide) (by decide) (by decide) (by decide)

/-- C5 (amended): for every viewport state with `0 <= height` and
`0 <= offset <= max(0, len(lines) - height)`, after `pageDown()` the
offset is at most `max(0, len(lines) - height)` (the unclamped bound
`len(lines) - height` fails when the content is shorter than the
viewport) and at least the previous offset, and `pageDown()` at the
bottom is idempotent: a second call yields the same offset. -/
theorem C5_pagedown_props (m : viewport.Model)
    (hh : 0 ≤ m.Height) (hlo : 0 ≤ m.YOffset)
    (hhi : m.YOffset ≤ max 0 ((m.lines.length : Int) - m.Height)) :
    ((viewport.ViewDown m).YOffset ≤ max 0 ((m.lines.length : Int) - m.Height)
        ∧ m.YOffset ≤ (viewport.ViewDown m).YOffset)
      ∧ (viewport.AtBottom m = true →
          (viewport.ViewDown (viewport.ViewDown m)).YOffset
            = (viewport.ViewDown m).YOffset) := by
  cases hb : viewport.AtBottom m with
  | true =>
    rw [viewDown_atBottom hb]
    refine ⟨⟨hhi, le_refl _⟩, fun _ => ?_⟩
    rw [viewDown_atBottom hb]
  | false =>
    have hb' := hb
    simp only [viewport.AtBottom, decide_eq_false_iff_not, not_le] at hb'
    rw [viewDown_not_atBottom hb]
    dsimp only
    refine ⟨⟨?_, ?_⟩, fun htrue => ?_⟩
    · exact le_trans (min_le_right _ _) (le_max_right _ _)
    · exact le_min (by omega) (by omega)
    · exact absurd htrue (by simp)

/-- C5 witness: 25 lines, height 10, offset 0: one `pageDown()` lands
within the bound and does not decrease the offset; the idempotence
clause holds (vacuously: this state is not at the bottom). -/
theorem C5_pagedown_props_witness :
    ((viewport.ViewDown m25).YOffset ≤ max 0 ((m25.lines.length : Int) - m25.Height)
        ∧ m25.YOffset ≤ (viewport.ViewDown m25).YOffset)
      ∧ (viewport.AtBottom m25 = true →
          (viewport.ViewDown (viewport.ViewDown m25)).YOffset
            = (viewport.ViewDown m25).YOffset) :=
  C5_pagedown_props m25 (by decide) (by decide) (by decide)

/-- C6 (amended): `pageUp()` then `pageDown()` from a non-boundary
offset returns to the original offset when the height is nonnegative
and divides the scrollable range, provided additionally that the
offset is at least one full page (`height <= offset`); from a smaller
non-boundary offset `pageUp()` clamps to 0 and the round trip lands on
`min(height, len(lines)-height)` instead of the original offset. -/
theorem C6_roundtrip (m : viewport.Model)
    (hh : 0 ≤ m.Height)
    (htop : viewport.AtTop m = false)
    (hbot : viewport.AtBottom m = false)
    (hdvd : ((m.lines.length : Int) - m.Height) % m.Height = 0)
    (hge : m.Height ≤ m.YOffset) :
    (viewport.ViewDown (viewport.ViewUp m)).YOffset = m.YOffset := by
  have htop' := htop
  simp only [viewport.AtTop, decide_eq_false_iff_not, not_le] at htop'
  have hbot' := hbot
  simp only [viewport.AtBottom, decide_eq_false_iff_not, not_le] at hbot'
  rw [viewUp_not_atTop htop]
  have hmax : max (m.YOffset - m.Height) 0 = m.YOffset - m.Height :=
    max_eq_left (by omega)
  rw [hmax]
  have hb1 : viewport.AtBottom { m with YOffset := m.YOffset - m.Height } = false := by
    simp only [viewport.AtBottom, decide_eq_false_iff_not, not_le]
    omega
  rw [viewDown_not_atBottom hb1]
  show min (m.YOffset - m.Height + m.Height) ((m.lines.length : Int) - m.Height) = m.YOffset
  rw [min_eq_left (by omega)]
  omega

/-- C6 witness: 30 lines, height 10, offset 10: the state is
non-boundary, 10 divides the scrollable range 20, and `pageUp()`
followed by `pageDown()` returns the offset to 10. -/
theorem C6_roundtrip_witness :
    (viewport.ViewDown (viewport.ViewUp m30b)).YOffset = m30b.YOffset :=
  C6_roundtrip m30b (by decide) (by decide) (by decide) (by decide) (by decide)

/-- C7 (amended): whenever the viewport holds a stored content-load
error and high-performance rendering is off, `View` returns the stored
error's message instead of the line content; with high-performance
rendering on, `View` returns the newline placeholder even when an
error is stored. -/
theorem C7_error_short_circuits (m : viewport.Model) (e : GoStr)
    (hp : m.HighPerformanceRendering = false) (he : m.Err = some e) :
    viewport.View m = some e := by
  unfold viewport.View
  rw [hp, he]
  simp

/-- C7 witness: a viewport storing the error message `"boom"` with
standard rendering renders exactly `"boom"`. -/
theorem C7_error_short_circuits_witness :
    viewport.View mErr = some ['b', 'o', 'o', 'm'] :=
  C7_error_short_circuits mErr ['b', 'o', 'o', 'm'] rfl rfl
